import Mathlib

/-!
Verification development for the intermode base module (module.go).

Modelling conventions:
- Go float64 values are modelled as exact rationals. Every float operation
  this code performs on the paths verified below is exact in IEEE 754 double
  precision at the inputs used: division by the device scalars 0.0078125 and
  0.0625 is multiplication by a power of two, and the concrete inputs of the
  counterexamples are dyadic rationals at which the division by 5 is exact.
- Go conversions from float64 to int16 and uint16 truncate toward zero; that
  truncation is truncToInt below. The uint16 wrap of Go integer conversion is
  taken modulo 2 to the 16.
- Bytes are naturals below 256; canbus frames carry a list of bytes.
- The concurrent parts (the publish loop, the channel hand-off in
  setNextCommand) are modelled as step functions over explicit inputs saying
  which select case fired and whether the relevant context was cancelled.
  The base struct stores only the cancel function of its background context,
  so setNextCommand can consult only the caller context; the model reflects
  exactly that.
-/

/-- Truncation of a rational toward zero, the semantics of the Go conversions
int16(x) and uint16(x) for an in-range float x. -/
def truncToInt (q : ℚ) : ℤ := if 0 ≤ q then ⌊q⌋ else -⌊-q⌋

/-- Reduction of a (possibly negative) integer to its unsigned 16-bit
representative, the wrap Go applies when converting to uint16. -/
def u16ofInt (v : ℤ) : ℕ := (v % 65536).toNat

/-- Little-endian two-byte encoding, binary.LittleEndian.PutUint16. -/
def leBytes2 (u : ℕ) : List ℕ := [u % 256, u / 256 % 256]

/-- Read an unsigned 16-bit value back from its two little-endian bytes. -/
def leNat2 (bs : List ℕ) : ℕ := bs.headI + 256 * bs.tail.headI

/-- Reinterpret an unsigned 16-bit value as a signed 16-bit integer. -/
def i16ofU16 (u : ℕ) : ℤ := if u < 32768 then (u : ℤ) else (u : ℤ) - 65536

/-- Fixed bus channel name, constant from the data sheet. -/
def channel : String := "can0"

/-- Fixed device address of drive command frames, constant from the data sheet. -/
def driveId : ℕ := 0x220

def gearPark : String := "park"

def gearReverse : String := "reverse"

def gearNeutral : String := "neutral"

def gearDrive : String := "drive"

def gearEmergencyStop : String := "emergency_stop"

def steerModeFrontWheelDrive : String := "front-wheel-drive"

def steerModeRearWheelDrive : String := "rear-wheel-drive"

def steerModeFourWheelDrive : String := "four-wheel-drive"

def steerModeCrabSteering : String := "crab-steering"

/-- The gears lookup table; a Go map lookup of an absent key yields the zero
byte, reproduced by the final branch. -/
def gears (s : String) : ℕ :=
  if s = gearPark then 0
  else if s = gearReverse then 1
  else if s = gearNeutral then 2
  else if s = gearDrive then 3
  else if s = gearEmergencyStop then 4
  else 0

/-- The steerModes lookup table, with the Go zero value for absent keys. -/
def steerModes (s : String) : ℕ :=
  if s = steerModeFrontWheelDrive then 0
  else if s = steerModeRearWheelDrive then 1
  else if s = steerModeFourWheelDrive then 2
  else if s = steerModeCrabSteering then 3
  else 0

structure driveCommand where
  Accelerator : ℚ
  Brake : ℚ
  SteeringAngle : ℚ
  Gear : ℕ
  SteerMode : ℕ
deriving DecidableEq

/-- Frame kinds of the canbus package; the module only builds SFF frames. -/
inductive FrameKind where
  | sff
  | eff
deriving DecidableEq

/-- A canbus frame: identifier, payload bytes, addressing kind. -/
structure Frame where
  ID : ℕ
  Data : List ℕ
  Kind : FrameKind
deriving DecidableEq

/-- calculateSteeringAngleBytes from module.go: clamp to the nearest bound
when the magnitude exceeds 90 (math.Signbit selects the sign, and the clamped
inputs are nonzero, so the signbit test coincides with negativity), divide by
the intermode scalar, convert through int16 (truncation toward zero) and emit
little-endian. -/
def calculateSteeringAngleBytes (angle : ℚ) : List ℕ :=
  let angle := if |angle| > 90 then (if angle < 0 then -90 else 90) else angle
  leBytes2 (u16ofInt (truncToInt (angle / 0.0078125)))

/-- calculateAccelAndBrakeBytes from module.go: the fixed braking pattern at
zero, otherwise the absolute value derated to one fifth, divided by the
intermode scalar, converted through uint16 (truncation toward zero) into the
first two of four bytes. -/
def calculateAccelAndBrakeBytes (accelPct : ℚ) : List ℕ :=
  if accelPct = 0 then [0, 0, 0x40, 0x06]
  else
    let accelPct := |accelPct| / 5
    let value := u16ofInt (truncToInt (accelPct / 0.0625))
    [value % 256, value / 256 % 256, 0, 0]

/-- toFrame from module.go. The receiver is a pointer, and the gear assignment
under a negative accelerator writes through it, so the function both returns
the frame and updates the command; the pair returned here is (frame, command
after the call). The byte appends precede the gear assignment in the source,
but the accelerator and steering bytes do not read the gear field, so
computing the updated command first is equivalent. -/
def driveCommand.toFrame (cmd : driveCommand) : Frame × driveCommand :=
  let cmd' := if cmd.Accelerator < 0 then { cmd with Gear := gears gearReverse } else cmd
  (⟨driveId,
    calculateAccelAndBrakeBytes cmd.Accelerator
      ++ calculateSteeringAngleBytes cmd.SteeringAngle
      ++ [cmd'.Gear, cmd'.SteerMode],
    FrameKind.sff⟩,
   cmd')

/-- The package-level stop command of module.go. -/
def stopCmd : driveCommand :=
  ⟨0, 100, 0, gears gearPark, steerModes steerModeFourWheelDrive⟩

/-- The frame the publish loop initializes its current frame to. -/
def publishInitFrame : Frame := (stopCmd.toFrame).1

/-- Which case of the select in publishThread fired on a given wait: the
context Done case, a receive from nextCommandCh, or the 10 ms timeout. -/
inductive SelEvent where
  | cancelled
  | recv (f : Frame)
  | timeout
deriving DecidableEq

/-- Inputs of one iteration of publishThread: whether ctx.Err() was non-nil at
the top-of-loop check, and which select case fired during the wait. -/
structure IterInput where
  topCancelled : Bool
  ev : SelEvent
deriving DecidableEq

/-- publishThread from module.go as a function from per-iteration inputs to
the list of frames handed to socket.Send, in order. Each iteration first
checks ctx.Err() and returns if non-nil; then the select either does nothing
on the Done case (the case body is empty), adopts a received frame, or keeps
the current frame on timeout; then it unconditionally sends the current
frame (a send error is logged and does not alter control flow, so sends here
are send attempts). -/
def publishRun (cur : Frame) : List IterInput → List Frame
  | [] => []
  | i :: rest =>
    if i.topCancelled then []
    else
      match i.ev with
      | SelEvent.recv f => f :: publishRun f rest
      | _ => cur :: publishRun cur rest

/-- Results a call to setNextCommand can reach: a context cancellation error,
a completed hand-off, or blocking with neither select case ready. -/
inductive PushResult where
  | errCancelled
  | sent
  | blocked
deriving DecidableEq

/-- Observable effects of one setNextCommand call: its result, how many times
toFrame ran, and the frame delivered to the channel, if any. -/
structure PushTrace where
  result : PushResult
  framesBuilt : ℕ
  delivered : Option Frame
deriving DecidableEq

/-- setNextCommand from module.go. It consults only the caller context: the
base struct stores the cancel function of the background context but not that
context itself, so driver shutdown is invisible here. The entry check returns
ctx.Err() before anything else; otherwise the select first evaluates the send
value cmd.toFrame (Go evaluates send operands when the select begins), then
commits to a ready case or blocks when none is ready. When both cases are
ready Go chooses uniformly at random; the model commits to the send, and no
theorem below depends on that tie-break. -/
def setNextCommand (cancelledAtEntry cancelledDuringSelect receiverReady : Bool)
    (cmd : driveCommand) : PushTrace :=
  if cancelledAtEntry then ⟨PushResult.errCancelled, 0, none⟩
  else
    let f := (cmd.toFrame).1
    if receiverReady then ⟨PushResult.sent, 1, some f⟩
    else if cancelledDuringSelect then ⟨PushResult.errCancelled, 1, none⟩
    else ⟨PushResult.blocked, 1, none⟩

/-- Observable effects of a successful MoveStraight call: the frames handed
off, in order, and the nanosecond count of the wait between them. -/
structure MotionCall where
  pushes : List Frame
  waitNs : ℤ

/-- MoveStraight from module.go on its successful path: build the drive
command with accelerator 50, flip its sign when either argument is negative,
hand off its frame, wait time.Duration(mmPerSec / float64(distanceMm))
nanoseconds (the conversion of a float to time.Duration truncates), then the
deferred hand-off pushes the stop command frame. -/
def MoveStraight (distanceMm : ℤ) (mmPerSec : ℚ) : MotionCall :=
  let cmd0 : driveCommand :=
    ⟨50, 0, 0, gears gearDrive, steerModes steerModeFourWheelDrive⟩
  let cmd := if mmPerSec < 0 ∨ distanceMm < 0
    then { cmd0 with Accelerator := cmd0.Accelerator * (-1) } else cmd0
  ⟨[(cmd.toFrame).1, (stopCmd.toFrame).1],
   truncToInt (mmPerSec / (distanceMm : ℚ))⟩

/-- IsMoving from module.go: the boolean result paired with the error it
always returns. -/
def IsMoving : Bool × Option String :=
  (false, some ("intermodeBase does not yet support IsMoving"))

/-- DoCommand from module.go, with the argument map modelled as an
association list and its values as strings: a missing command key is an
error, and the switch over the name has only the default branch, an error
naming the command. -/
def DoCommand (cmd : List (String × String)) : Except String (List (String × String)) :=
  match cmd.lookup ("command") with
  | none => Except.error ("missing command value")
  | some name => Except.error ("no such command: " ++ name)

/-- Modelled from the spec: the steering encoder the spec describes, with
round in place of the truncation the Go conversion performs; kept only to
compare against calculateSteeringAngleBytes. -/
def specSteeringAngleBytesRound (angle : ℚ) : List ℕ :=
  let angle := if |angle| > 90 then (if angle < 0 then -90 else 90) else angle
  leBytes2 (u16ofInt (round (angle / 0.0078125)))

/-- Modelled from the spec: the acceleration encoder the spec describes, with
round in place of the truncation the Go conversion performs; kept only to
compare against calculateAccelAndBrakeBytes. -/
def specAccelAndBrakeBytesRound (accelPct : ℚ) : List ℕ :=
  if accelPct = 0 then [0, 0, 0x40, 0x06]
  else leBytes2 (u16ofInt (round (|accelPct| / 5 / 0.0625))) ++ [0, 0]

/-- Decode two little-endian steering bytes back to degrees by reading them
as a signed 16-bit integer and multiplying by the device scalar. -/
def decodeSteeringAngle (bs : List ℕ) : ℚ := (i16ofU16 (leNat2 bs) : ℚ) * 0.0078125

theorem truncToInt_abs_le (q : ℚ) : |(truncToInt q : ℚ)| ≤ |q| := by
  unfold truncToInt
  by_cases h : 0 ≤ q
  · rw [if_pos h]
    have h1 : (0 : ℚ) ≤ (⌊q⌋ : ℚ) := by exact_mod_cast Int.floor_nonneg.mpr h
    rw [abs_of_nonneg h1, abs_of_nonneg h]
    exact Int.floor_le q
  · rw [if_neg h]
    push_neg at h
    have h0 : (0 : ℚ) ≤ -q := by linarith
    have h1 : (0 : ℚ) ≤ (⌊-q⌋ : ℚ) := by exact_mod_cast Int.floor_nonneg.mpr h0
    have h2 : (⌊-q⌋ : ℚ) ≤ -q := Int.floor_le (-q)
    push_cast
    rw [abs_neg, abs_of_nonneg h1, abs_of_neg h]
    exact h2

theorem truncToInt_err_lt (q : ℚ) : |(truncToInt q : ℚ) - q| < 1 := by
  unfold truncToInt
  by_cases h : 0 ≤ q
  · rw [if_pos h, abs_sub_lt_iff]
    constructor
    · have := Int.floor_le q
      linarith
    · have := Int.lt_floor_add_one q
      linarith
  · rw [if_neg h, abs_sub_lt_iff]
    push_neg at h
    have h1 : (⌊-q⌋ : ℚ) ≤ -q := Int.floor_le (-q)
    have h2 : -q < (⌊-q⌋ : ℚ) + 1 := Int.lt_floor_add_one (-q)
    push_cast
    constructor <;> linarith

theorem u16ofInt_lt (v : ℤ) : u16ofInt v < 65536 := by
  unfold u16ofInt
  omega

theorem leNat2_leBytes2 {u : ℕ} (h : u < 65536) : leNat2 (leBytes2 u) = u := by
  simp only [leNat2, leBytes2, List.headI, List.tail]
  omega

theorem i16_u16_roundtrip {v : ℤ} (h1 : -32768 ≤ v) (h2 : v < 32768) :
    i16ofU16 (u16ofInt v) = v := by
  unfold i16ofU16 u16ofInt
  omega

theorem accelBytes_length (p : ℚ) : (calculateAccelAndBrakeBytes p).length = 4 := by
  unfold calculateAccelAndBrakeBytes
  split <;> rfl

theorem steeringBytes_length (a : ℚ) : (calculateSteeringAngleBytes a).length = 2 := by
  unfold calculateSteeringAngleBytes
  rfl

/-- C1 counterexample: the code converts through int16, which truncates
toward zero, not through round. At the in-range angle 3/512 degrees the
quotient by the scalar is exactly 3/4: the code emits the bytes of 0 while
the rounding encoder of the claim emits the bytes of 1. -/
theorem C1_round_counterexample :
    calculateSteeringAngleBytes (3/512) = [0, 0]
    ∧ specSteeringAngleBytesRound (3/512) = [1, 0]
    ∧ calculateSteeringAngleBytes (3/512) ≠ specSteeringAngleBytesRound (3/512) := by
  have hcl : ¬ |(3/512 : ℚ)| > 90 := by
    rw [not_lt, abs_le]
    constructor <;> norm_num
  have h1 : calculateSteeringAngleBytes (3/512) = [0, 0] := by
    have ht : truncToInt ((3/512 : ℚ) / 0.0078125) = 0 := by
      rw [truncToInt, if_pos (by norm_num)]
      norm_num
    simp only [calculateSteeringAngleBytes]
    rw [if_neg hcl, ht]
    decide
  have h2 : specSteeringAngleBytesRound (3/512) = [1, 0] := by
    have ht : round ((3/512 : ℚ) / 0.0078125) = 1 := by
      rw [round_eq]
      norm_num
    simp only [specSteeringAngleBytesRound]
    rw [if_neg hcl, ht]
    decide
  refine ⟨h1, h2, ?_⟩
  rw [h1, h2]
  decide

/-- C1 as amended: with truncation toward zero in place of round, the
steering encoder emits, for in-range angles, the little-endian unsigned
image of the truncated signed 16-bit value, decoding recovers the angle to
within one 1/128-degree step, and out-of-range angles saturate to the
nearest bound with the sign preserved. -/
theorem C1_steering_encode (a : ℚ) :
    (|a| ≤ 90 →
      calculateSteeringAngleBytes a = leBytes2 (u16ofInt (truncToInt (a / 0.0078125)))
      ∧ |decodeSteeringAngle (calculateSteeringAngleBytes a) - a| < 0.0078125)
    ∧ (90 < |a| →
      calculateSteeringAngleBytes a =
        if a < 0 then calculateSteeringAngleBytes (-90) else calculateSteeringAngleBytes 90) := by
  constructor
  · intro h
    have hnot : ¬ |a| > 90 := not_lt.mpr h
    have heq : calculateSteeringAngleBytes a = leBytes2 (u16ofInt (truncToInt (a / 0.0078125))) := by
      simp only [calculateSteeringAngleBytes]
      rw [if_neg hnot]
    refine ⟨heq, ?_⟩
    have hs : (0.0078125 : ℚ) = 1/128 := by norm_num
    set v : ℤ := truncToInt (a / 0.0078125) with hv
    have habs : |(v : ℚ)| ≤ |a / 0.0078125| := truncToInt_abs_le _
    have hb : |a / 0.0078125| ≤ 11520 := by
      rw [hs, abs_div, abs_of_nonneg (by norm_num : (0:ℚ) ≤ (1:ℚ)/128),
        div_le_iff₀ (by norm_num : (0:ℚ) < (1:ℚ)/128)]
      calc |a| ≤ 90 := h
        _ ≤ 11520 * ((1:ℚ)/128) := by norm_num
    have hvr : -32768 ≤ v ∧ v < 32768 := by
      have h1 : |(v : ℚ)| ≤ 11520 := le_trans habs hb
      have h2 : ((|v| : ℤ) : ℚ) ≤ 11520 := by
        push_cast
        exact h1
      have h3 : |v| ≤ 11520 := by exact_mod_cast h2
      rw [abs_le] at h3
      omega
    have hdec : decodeSteeringAngle (calculateSteeringAngleBytes a) = (v : ℚ) * 0.0078125 := by
      rw [heq, decodeSteeringAngle, leNat2_leBytes2 (u16ofInt_lt v),
        i16_u16_roundtrip hvr.1 hvr.2]
    rw [hdec]
    have herr : |(v : ℚ) - a / 0.0078125| < 1 := truncToInt_err_lt _
    have hc : (0.0078125 : ℚ) ≠ 0 := by norm_num
    have hkey : (v : ℚ) * 0.0078125 - a = ((v : ℚ) - a / 0.0078125) * 0.0078125 := by
      rw [sub_mul, div_mul_cancel₀ _ hc]
    rw [hkey, abs_mul, abs_of_nonneg (by norm_num : (0:ℚ) ≤ (0.0078125 : ℚ))]
    calc |(v : ℚ) - a / 0.0078125| * 0.0078125 < 1 * 0.0078125 :=
          mul_lt_mul_of_pos_right herr (by norm_num)
      _ = 0.0078125 := one_mul _
  · intro h
    by_cases hneg : a < 0
    · rw [if_pos hneg]
      have h1 : calculateSteeringAngleBytes a
          = leBytes2 (u16ofInt (truncToInt ((-90 : ℚ) / 0.0078125))) := by
        simp only [calculateSteeringAngleBytes]
        rw [if_pos h, if_pos hneg]
      have h2 : calculateSteeringAngleBytes (-90 : ℚ)
          = leBytes2 (u16ofInt (truncToInt ((-90 : ℚ) / 0.0078125))) := by
        simp only [calculateSteeringAngleBytes]
        rw [if_neg (by rw [not_lt, abs_le]; constructor <;> norm_num)]
      rw [h1, h2]
    · rw [if_neg hneg]
      have h1 : calculateSteeringAngleBytes a
          = leBytes2 (u16ofInt (truncToInt ((90 : ℚ) / 0.0078125))) := by
        simp only [calculateSteeringAngleBytes]
        rw [if_pos h, if_neg hneg]
      have h2 : calculateSteeringAngleBytes (90 : ℚ)
          = leBytes2 (u16ofInt (truncToInt ((90 : ℚ) / 0.0078125))) := by
        simp only [calculateSteeringAngleBytes]
        rw [if_neg (by rw [not_lt, abs_le]; constructor <;> norm_num)]
      rw [h1, h2]

/-- Witness for C1: the amended statement applied at an in-range angle and
at an out-of-range angle. -/
theorem C1_steering_encode_witness :
    (calculateSteeringAngleBytes (1/2) = leBytes2 (u16ofInt (truncToInt ((1/2 : ℚ) / 0.0078125)))
      ∧ |decodeSteeringAngle (calculateSteeringAngleBytes (1/2)) - 1/2| < 0.0078125)
    ∧ calculateSteeringAngleBytes (-100 : ℚ) =
        (if (-100 : ℚ) < 0 then calculateSteeringAngleBytes (-90) else calculateSteeringAngleBytes 90) :=
  ⟨(C1_steering_encode (1/2)).1 (by rw [abs_le]; constructor <;> norm_num),
   (C1_steering_encode (-100)).2 (by rw [abs_of_nonpos (by norm_num)]; norm_num)⟩

/-- C2 counterexample: the code converts through uint16, which truncates
toward zero, not through round. At the input 55/64 percent the derated and
scaled value is exactly 11/4: the code emits the bytes of 2 while the
rounding encoder of the claim emits the bytes of 3. -/
theorem C2_round_counterexample :
    calculateAccelAndBrakeBytes (55/64) = [2, 0, 0, 0]
    ∧ specAccelAndBrakeBytesRound (55/64) = [3, 0, 0, 0]
    ∧ calculateAccelAndBrakeBytes (55/64) ≠ specAccelAndBrakeBytesRound (55/64) := by
  have habs : |(55/64 : ℚ)| = 55/64 := abs_of_nonneg (by norm_num)
  have hz : ¬ (55/64 : ℚ) = 0 := by norm_num
  have h1 : calculateAccelAndBrakeBytes (55/64) = [2, 0, 0, 0] := by
    have ht : truncToInt (|(55/64 : ℚ)| / 5 / 0.0625) = 2 := by
      rw [habs, truncToInt, if_pos (by norm_num)]
      norm_num
    simp only [calculateAccelAndBrakeBytes]
    rw [if_neg hz, ht]
    decide
  have h2 : specAccelAndBrakeBytesRound (55/64) = [3, 0, 0, 0] := by
    have ht : round (|(55/64 : ℚ)| / 5 / 0.0625) = 3 := by
      rw [habs, round_eq]
      norm_num
    simp only [specAccelAndBrakeBytesRound]
    rw [if_neg hz, ht]
    decide
  refine ⟨h1, h2, ?_⟩
  rw [h1, h2]
  decide

/-- C2 as amended: zero emits the literal braking pattern, and a nonzero
percentage emits the little-endian unsigned 16-bit image of the derated
magnitude divided by the scalar and truncated toward zero, with the two
trailing bytes zero. -/
theorem C2_accel_encode :
    calculateAccelAndBrakeBytes 0 = [0x00, 0x00, 0x40, 0x06]
    ∧ ∀ p : ℚ, p ≠ 0 →
        calculateAccelAndBrakeBytes p =
          leBytes2 (u16ofInt (truncToInt (|p| / 5 / 0.0625))) ++ [0, 0]
        ∧ (calculateAccelAndBrakeBytes p).drop 2 = [0, 0] := by
  constructor
  · simp [calculateAccelAndBrakeBytes]
  · intro p hp
    have heq : calculateAccelAndBrakeBytes p =
        leBytes2 (u16ofInt (truncToInt (|p| / 5 / 0.0625))) ++ [0, 0] := by
      simp only [calculateAccelAndBrakeBytes, leBytes2]
      rw [if_neg hp]
      rfl
    refine ⟨heq, ?_⟩
    rw [heq]
    rfl

/-- Witness for C2: the amended statement applied at the nonzero input 50. -/
theorem C2_accel_encode_witness :
    calculateAccelAndBrakeBytes 50 =
      leBytes2 (u16ofInt (truncToInt (|(50 : ℚ)| / 5 / 0.0625))) ++ [0, 0]
    ∧ (calculateAccelAndBrakeBytes 50).drop 2 = [0, 0] :=
  C2_accel_encode.2 50 (by norm_num)

theorem getSix (A S : List ℕ) (g m : ℕ) (hA : A.length = 4) (hS : S.length = 2) :
    (A ++ S ++ [g, m])[6]? = some g := by
  rw [List.append_assoc, List.getElem?_append_right (by omega), hA,
    List.getElem?_append_right (by omega), hS]
  rfl

/-- C3: for every command, the frame built by toFrame carries exactly 8
payload bytes laid out as the four acceleration and brake bytes, the two
steering bytes, the gear byte and the steer-mode byte; the gear byte is the
reverse code when the accelerator is negative and the caller-supplied gear
otherwise; and the frame uses standard addressing with the drive identifier. -/
theorem C3_toFrame_shape (cmd : driveCommand) :
    (cmd.toFrame).1.Data =
      calculateAccelAndBrakeBytes cmd.Accelerator
        ++ calculateSteeringAngleBytes cmd.SteeringAngle
        ++ [if cmd.Accelerator < 0 then gears gearReverse else cmd.Gear, cmd.SteerMode]
    ∧ (cmd.toFrame).1.Data.length = 8
    ∧ (cmd.toFrame).1.Data[6]? =
        some (if cmd.Accelerator < 0 then gears gearReverse else cmd.Gear)
    ∧ (cmd.toFrame).1.Kind = FrameKind.sff
    ∧ (cmd.toFrame).1.ID = driveId := by
  have hdata : (cmd.toFrame).1.Data =
      calculateAccelAndBrakeBytes cmd.Accelerator
        ++ calculateSteeringAngleBytes cmd.SteeringAngle
        ++ [if cmd.Accelerator < 0 then gears gearReverse else cmd.Gear, cmd.SteerMode] := by
    by_cases h : cmd.Accelerator < 0
    · simp only [driveCommand.toFrame, if_pos h]
    · simp only [driveCommand.toFrame, if_neg h]
  refine ⟨hdata, ?_, ?_, rfl, rfl⟩
  · rw [hdata]
    simp [accelBytes_length, steeringBytes_length]
  · rw [hdata]
    exact getSix _ _ _ _ (accelBytes_length _) (steeringBytes_length _)

/-- C4 counterexample: toFrame writes the gear through its pointer receiver.
For a command with accelerator -50 and gear drive, the command after the
call differs from the command before it: its gear has become the reverse
code. -/
theorem C4_mutation_counterexample :
    ((⟨-50, 0, 0, gears gearDrive, steerModes steerModeFourWheelDrive⟩ :
        driveCommand).toFrame).2.Gear = gears gearReverse
    ∧ gears gearReverse ≠ gears gearDrive
    ∧ ((⟨-50, 0, 0, gears gearDrive, steerModes steerModeFourWheelDrive⟩ :
        driveCommand).toFrame).2 ≠
      (⟨-50, 0, 0, gears gearDrive, steerModes steerModeFourWheelDrive⟩ : driveCommand) := by
  have hlt : ((⟨-50, 0, 0, gears gearDrive, steerModes steerModeFourWheelDrive⟩ :
      driveCommand)).Accelerator < 0 := by norm_num
  have h1 : ((⟨-50, 0, 0, gears gearDrive, steerModes steerModeFourWheelDrive⟩ :
      driveCommand).toFrame).2 =
      (⟨-50, 0, 0, gears gearReverse, steerModes steerModeFourWheelDrive⟩ : driveCommand) := by
    simp only [driveCommand.toFrame, if_pos hlt]
  have hg : gears gearReverse ≠ gears gearDrive := by decide
  refine ⟨by rw [h1], hg, ?_⟩
  rw [h1]
  intro hcontra
  exact hg (congrArg driveCommand.Gear hcontra)

/-- C4 as amended: toFrame leaves the accelerator, brake, steering angle and
steer mode of the caller's command unchanged, but when the accelerator is
negative it sets the caller's gear to the reverse code through the pointer
receiver; only with a nonnegative accelerator is the command returned
unchanged. -/
theorem C4_toFrame_mutates_gear (cmd : driveCommand) :
    (cmd.toFrame).2 =
      (if cmd.Accelerator < 0 then { cmd with Gear := gears gearReverse } else cmd)
    ∧ (cmd.toFrame).2.Accelerator = cmd.Accelerator
    ∧ (cmd.toFrame).2.Brake = cmd.Brake
    ∧ (cmd.toFrame).2.SteeringAngle = cmd.SteeringAngle
    ∧ (cmd.toFrame).2.SteerMode = cmd.SteerMode := by
  by_cases h : cmd.Accelerator < 0
  · simp [driveCommand.toFrame, if_pos h]
  · simp [driveCommand.toFrame, if_neg h]

/-- C5 counterexample: the Done case of the select in publishThread has an
empty body, so an iteration that observes cancellation during its wait falls
through to the unconditional send. Starting from the initial frame, a run
whose single iteration observes cancellation in the select still sends one
frame, where the claim demands no send at all. -/
theorem C5_final_send_counterexample :
    publishRun publishInitFrame [⟨false, SelEvent.cancelled⟩] = [publishInitFrame]
    ∧ publishRun publishInitFrame [⟨false, SelEvent.cancelled⟩] ≠ ([] : List Frame) := by
  constructor
  · rfl
  · intro h
    simp [publishRun] at h

/-- C5 as amended: an iteration that observes cancellation during its wait
sends the current frame exactly once more, and the loop then terminates at
the next top-of-loop check (cancellation, once signaled, persists), so
exactly one send follows the observation. -/
theorem C5_cancel_sends_once (cur : Frame) (rest : List IterInput)
    (h : ∀ i ∈ rest, i.topCancelled = true) :
    publishRun cur (⟨false, SelEvent.cancelled⟩ :: rest) = [cur] := by
  cases rest with
  | nil => rfl
  | cons i t =>
    have hi := h i (List.mem_cons_self i t)
    simp [publishRun, hi]

/-- Witness for C5: the amended statement applied to a run whose later
iteration sees the persisting cancellation at its top-of-loop check. -/
theorem C5_cancel_sends_once_witness :
    publishRun publishInitFrame
      [⟨false, SelEvent.cancelled⟩, ⟨true, SelEvent.timeout⟩] = [publishInitFrame] :=
  C5_cancel_sends_once publishInitFrame [⟨true, SelEvent.timeout⟩] (by
    intro i hi
    rw [List.mem_singleton] at hi
    rw [hi])

/-- C6 counterexample: setNextCommand consults only the caller context (the
base stores just the cancel function of the background context), so with the
caller context live and the publish loop exited, i.e. no receiver ready, the
hand-off blocks instead of failing with a cancellation error. Driver shutdown
is not even an input of the call. -/
theorem C6_close_does_not_unblock_push :
    (setNextCommand false false false stopCmd).result = PushResult.blocked
    ∧ (setNextCommand false false false stopCmd).result ≠ PushResult.errCancelled := by
  have h1 : (setNextCommand false false false stopCmd).result = PushResult.blocked := rfl
  refine ⟨h1, ?_⟩
  rw [h1]
  decide

/-- C6 as amended: a push whose caller context is never cancelled cannot
return a cancellation error, whatever the receiver does; in particular with
no receiver ready it blocks. Driver shutdown influences a push only by
removing the receiver, which yields blocking, not an error. -/
theorem C6_push_cancel_only_from_caller (cmd : driveCommand) (receiverReady : Bool) :
    ((setNextCommand false false receiverReady cmd).result = PushResult.sent
      ∨ (setNextCommand false false receiverReady cmd).result = PushResult.blocked)
    ∧ (setNextCommand false false false cmd).result = PushResult.blocked := by
  cases receiverReady
  · exact ⟨Or.inr rfl, rfl⟩
  · exact ⟨Or.inl rfl, rfl⟩

/-- C7: MoveStraight first hands off the frame of a command with accelerator
50, negated when either argument is negative, brake 0, steering angle 0, gear
drive and steer mode four-wheel drive; afterwards it hands off the stop
command frame; and the wait between them is mmPerSec / distanceMm (the
dimensionally backwards observed formula), truncated to a nanosecond count by
the Duration conversion. -/
theorem C7_moveStraight (d : ℤ) (v : ℚ) :
    (MoveStraight d v).pushes =
      [((⟨if v < 0 ∨ d < 0 then -50 else 50, 0, 0, gears gearDrive,
          steerModes steerModeFourWheelDrive⟩ : driveCommand).toFrame).1,
        (stopCmd.toFrame).1]
    ∧ (MoveStraight d v).waitNs = truncToInt (v / (d : ℚ)) := by
  refine ⟨?_, rfl⟩
  by_cases h : v < 0 ∨ d < 0
  · simp only [MoveStraight, if_pos h]
    norm_num
  · simp only [MoveStraight, if_neg h]

/-- C8: the stop command frame starts with the literal braking pattern,
its full payload is the braking pattern, the zero steering bytes, the park
gear code and the four-wheel-drive code; and a publish iteration that
receives this frame sends it as its very next send. -/
theorem C8_stop_frame :
    (stopCmd.toFrame).1.Data =
      [0x00, 0x00, 0x40, 0x06, 0x00, 0x00, gears gearPark, steerModes steerModeFourWheelDrive]
    ∧ (stopCmd.toFrame).1.Data.take 4 = [0x00, 0x00, 0x40, 0x06]
    ∧ ∀ (cur : Frame) (rest : List IterInput),
        (publishRun cur (⟨false, SelEvent.recv (stopCmd.toFrame).1⟩ :: rest)).head? =
          some (stopCmd.toFrame).1 := by
  have hA : calculateAccelAndBrakeBytes (0 : ℚ) = [0, 0, 0x40, 0x06] := by
    simp [calculateAccelAndBrakeBytes]
  have hS : calculateSteeringAngleBytes (0 : ℚ) = [0, 0] := by
    have ht : truncToInt ((0 : ℚ) / 0.0078125) = 0 := by
      rw [truncToInt, if_pos (by norm_num)]
      norm_num
    simp only [calculateSteeringAngleBytes]
    rw [if_neg (by rw [not_lt, abs_le]; constructor <;> norm_num), ht]
    decide
  have hneg : ¬ stopCmd.Accelerator < 0 := by
    rw [show stopCmd.Accelerator = 0 from rfl]
    norm_num
  have hdata : (stopCmd.toFrame).1.Data =
      calculateAccelAndBrakeBytes stopCmd.Accelerator
        ++ calculateSteeringAngleBytes stopCmd.SteeringAngle
        ++ [stopCmd.Gear, stopCmd.SteerMode] := by
    simp only [driveCommand.toFrame, if_neg hneg]
  have hfull : (stopCmd.toFrame).1.Data =
      [0x00, 0x00, 0x40, 0x06, 0x00, 0x00, gears gearPark, steerModes steerModeFourWheelDrive] := by
    rw [hdata, show stopCmd.Accelerator = 0 from rfl,
      show stopCmd.SteeringAngle = 0 from rfl,
      show stopCmd.Gear = gears gearPark from rfl,
      show stopCmd.SteerMode = steerModes steerModeFourWheelDrive from rfl, hA, hS]
    rfl
  refine ⟨hfull, by rw [hfull]; rfl, ?_⟩
  intro cur rest
  simp [publishRun]

/-- C9: IsMoving always carries an error, and DoCommand fails on every
input: with the missing-argument error when the arguments hold no command
key, and otherwise with an unknown-command error naming the offending
command; no input succeeds. -/
theorem C9_unsupported_ops :
    (IsMoving.2).isSome = true
    ∧ (∀ args : List (String × String), ∃ e, DoCommand args = Except.error e)
    ∧ (∀ args : List (String × String), args.lookup ("command") = none →
        DoCommand args = Except.error ("missing command value"))
    ∧ (∀ args : List (String × String), ∀ name : String,
        args.lookup ("command") = some name →
        DoCommand args = Except.error ("no such command: " ++ name)) := by
  refine ⟨rfl, ?_, ?_, ?_⟩
  · intro args
    cases h : args.lookup ("command") with
    | none => exact ⟨("missing command value"), by unfold DoCommand; rw [h]⟩
    | some name => exact ⟨("no such command: " ++ name), by unfold DoCommand; rw [h]⟩
  · intro args h
    unfold DoCommand
    rw [h]
  · intro args name h
    unfold DoCommand
    rw [h]

/-- Witness for C9: DoCommand applied to an empty argument map and to a map
holding an unrecognized command name. -/
theorem C9_unsupported_ops_witness :
    DoCommand [] = Except.error ("missing command value")
    ∧ DoCommand [(("command" : String), ("open-door" : String))] =
        Except.error ("no such command: " ++ "open-door") :=
  ⟨C9_unsupported_ops.2.2.1 [] rfl,
   C9_unsupported_ops.2.2.2 [(("command" : String), ("open-door" : String))] ("open-door") rfl⟩

/-- C10: a setNextCommand call entered with the caller context already
cancelled returns the cancellation error having built no frame and delivered
nothing, whatever the select would have offered, so the hand-off channel is
left exactly as the last successful push left it. -/
theorem C10_push_cancelled_at_entry (cmd : driveCommand)
    (cancelledDuringSelect receiverReady : Bool) :
    setNextCommand true cancelledDuringSelect receiverReady cmd =
      ⟨PushResult.errCancelled, 0, none⟩ := rfl
